import Mathlib

/-!
# The `sse-client` node of node-red-contrib-server-sent-events

A shallow embedding of `src/sse-client/sse-client.js`.

The node keeps a registry `node.eventSources`, a plain JavaScript object used as a map from a
caller-supplied `uuid` to an open `EventSource` handle.  Everything the code does to the outside
world (the host runtime `RED`, the `node` API, the `EventSource` library) is recorded, in order,
in a trace of `Effect`s; what the outside world decides (whether `JSON.parse` or
`new EventSource` throws, which message id `RED.util.generateId()` returns) is a parameter `Env`.

The `EventSource` constructor receives the `headers` object by reference.  When that object
is `node.headers` itself, whatever the constructor does to it (the `eventsource` library
deletes a truthy `Last-Event-ID` entry before it connects) is visible in the node afterwards;
`Env.headersAfter` is that effect.  A `payload.headers` object belongs to the message, not to
the node, and its later state is not tracked.

Assumptions on the surroundings: the calls `node.status`, `node.send`, `node.error`,
`RED.log.*`, `RED.util.generateId`, `done`, `eventSource.on` and `eventSource.close` return
without throwing; `msg.payload.uuid`, `config.event` and `config.output` are strings and
`config.headers` is a string or absent, as the node's interface declares them.
-/

namespace SseClient

/-! ## JavaScript values -/

/-- JavaScript values that reach the node.  A number is kept as the exact decimal
`mant * 10 ^ exp`; rounding to binary64 is outside the model. -/
inductive JsVal where
  | undefined : JsVal
  | null : JsVal
  | bool (b : Bool) : JsVal
  | num (mant : Int) (exp : Int) : JsVal
  | str (s : String) : JsVal
  | arr (items : List JsVal) : JsVal
  | obj (fields : List (String × JsVal)) : JsVal

/-- The ECMAScript `ToBoolean` conversion, used by `||`, `?:` and `if`. -/
def JsVal.truthy : JsVal → Bool
  | .undefined => false
  | .null => false
  | .bool b => b
  | .num mant _ => mant != 0
  | .str s => s != ""
  | .arr _ => true
  | .obj _ => true

/-- The JavaScript `a || b` on values: `a` when it is truthy, otherwise `b`. -/
def jsOr (a b : JsVal) : JsVal :=
  if a.truthy then a else b

/-- A thrown JavaScript error object: its `name` and its `message`. -/
structure JsError where
  name : String
  message : String
  deriving DecidableEq, Repr

/-! ## A reference model of the built-in `JSON.parse`

The handlers below take the parser from `Env`; this model of the JSON grammar (ECMA-404) is the
parser of the standard environment `stdEnv`. -/

/-- JSON insignificant whitespace. -/
def isWs (c : Char) : Bool :=
  c == ' ' || c == '\t' || c == '\n' || c == '\r'

/-- Drops leading JSON whitespace. -/
def skipWs : List Char → List Char
  | [] => []
  | c :: cs => if isWs c then skipWs cs else c :: cs

/-- Value of a decimal digit. -/
def digitVal (c : Char) : Option Nat :=
  if 48 ≤ c.toNat ∧ c.toNat ≤ 57 then some (c.toNat - 48) else none

/-- Value of a hexadecimal digit. -/
def hexVal (c : Char) : Option Nat :=
  if 48 ≤ c.toNat ∧ c.toNat ≤ 57 then some (c.toNat - 48)
  else if 97 ≤ c.toNat ∧ c.toNat ≤ 102 then some (c.toNat - 87)
  else if 65 ≤ c.toNat ∧ c.toNat ≤ 70 then some (c.toNat - 55)
  else none

/-- Reads a maximal run of decimal digits: the number read so far, how many digits, the rest. -/
def readDigits : List Char → Nat → Nat → Nat × Nat × List Char
  | [], acc, n => (acc, n, [])
  | c :: cs, acc, n =>
    match digitVal c with
    | some d => readDigits cs (acc * 10 + d) (n + 1)
    | none => (acc, n, c :: cs)

/-- The integer part of a JSON number: `0`, or a digit `1`-`9` followed by digits. -/
def readInt (cs : List Char) : Option (Nat × List Char) :=
  match cs with
  | [] => none
  | c :: rest =>
    if c == '0' then some (0, rest)
    else match digitVal c with
      | none => none
      | some _ =>
        let r := readDigits (c :: rest) 0 0
        some (r.1, r.2.2)

/-- The optional fraction of a JSON number: the mantissa extended by the fraction digits and
the number of those digits. -/
def readFrac (mant : Nat) (cs : List Char) : Option (Nat × Nat × List Char) :=
  match cs with
  | '.' :: rest =>
    let r := readDigits rest mant 0
    if r.2.1 = 0 then none else some r
  | _ => some (mant, 0, cs)

/-- The optional exponent of a JSON number. -/
def readExp (cs : List Char) : Option (Int × List Char) :=
  let digits (neg : Bool) (rest : List Char) : Option (Int × List Char) :=
    let r := readDigits rest 0 0
    if r.2.1 = 0 then none
    else some (if neg then - (r.1 : Int) else (r.1 : Int), r.2.2)
  let signed (rest : List Char) : Option (Int × List Char) :=
    match rest with
    | '-' :: r => digits true r
    | '+' :: r => digits false r
    | r => digits false r
  match cs with
  | 'e' :: rest => signed rest
  | 'E' :: rest => signed rest
  | _ => some (0, cs)

/-- A JSON number: optional minus, integer part, optional fraction, optional exponent. -/
def parseNumber (cs : List Char) : Option (JsVal × List Char) :=
  let body (neg : Bool) (rest : List Char) : Option (JsVal × List Char) :=
    match readInt rest with
    | none => none
    | some (i, r1) =>
      match readFrac i r1 with
      | none => none
      | some (m, k, r2) =>
        match readExp r2 with
        | none => none
        | some (e, r3) =>
          some (.num (if neg then - (m : Int) else (m : Int)) (e - (k : Int)), r3)
  match cs with
  | '-' :: rest => body true rest
  | _ => body false cs

/-- Four hexadecimal digits of a `\u` escape. -/
def hex4 (a b c d : Char) : Option Nat :=
  match hexVal a, hexVal b, hexVal c, hexVal d with
  | some w, some x, some y, some z => some (((w * 16 + x) * 16 + y) * 16 + z)
  | _, _, _, _ => none

/-- The body of a JSON string after the opening quote, up to and including the closing quote.
A `\u` escape denoting a surrogate code unit, which a Lean `Char` cannot hold, is read as
U+FFFD. -/
def readString : Nat → List Char → List Char → Option (String × List Char)
  | 0, _, _ => none
  | _ + 1, [], _ => none
  | fuel + 1, c :: cs, acc =>
    if c == '"' then some (String.mk acc.reverse, cs)
    else if c == '\\' then
      match cs with
      | '"' :: r => readString fuel r ('"' :: acc)
      | '\\' :: r => readString fuel r ('\\' :: acc)
      | '/' :: r => readString fuel r ('/' :: acc)
      | 'b' :: r => readString fuel r (Char.ofNat 8 :: acc)
      | 'f' :: r => readString fuel r (Char.ofNat 12 :: acc)
      | 'n' :: r => readString fuel r ('\n' :: acc)
      | 'r' :: r => readString fuel r ('\r' :: acc)
      | 't' :: r => readString fuel r ('\t' :: acc)
      | 'u' :: h1 :: h2 :: h3 :: h4 :: r =>
        match hex4 h1 h2 h3 h4 with
        | none => none
        | some n =>
          readString fuel r ((if 0xD800 ≤ n ∧ n ≤ 0xDFFF then Char.ofNat 0xFFFD else Char.ofNat n) :: acc)
      | _ => none
    else if c.toNat < 32 then none
    else readString fuel cs (c :: acc)

/-- Defines property `k` of an object literal under construction: a repeated key keeps its
place and takes the later value. -/
def setField (fields : List (String × JsVal)) (k : String) (v : JsVal) : List (String × JsVal) :=
  if fields.any (fun p => p.1 == k) then fields.map (fun p => if p.1 == k then (k, v) else p)
  else fields ++ [(k, v)]

mutual
/-- A JSON value, with leading whitespace. -/
def parseValue : Nat → List Char → Option (JsVal × List Char)
  | 0, _ => none
  | fuel + 1, cs =>
    match skipWs cs with
    | 'n' :: 'u' :: 'l' :: 'l' :: rest => some (.null, rest)
    | 't' :: 'r' :: 'u' :: 'e' :: rest => some (.bool true, rest)
    | 'f' :: 'a' :: 'l' :: 's' :: 'e' :: rest => some (.bool false, rest)
    | '"' :: rest =>
      match readString (rest.length + 1) rest [] with
      | none => none
      | some (s, r) => some (.str s, r)
    | '[' :: rest =>
      match skipWs rest with
      | ']' :: r => some (.arr [], r)
      | r => parseElems fuel r []
    | '{' :: rest =>
      match skipWs rest with
      | '}' :: r => some (.obj [], r)
      | r => parseMembers fuel r []
    | other => parseNumber other
/-- The elements of a non-empty array, up to and including the closing bracket. -/
def parseElems : Nat → List Char → List JsVal → Option (JsVal × List Char)
  | 0, _, _ => none
  | fuel + 1, cs, acc =>
    match parseValue fuel cs with
    | none => none
    | some (v, rest) =>
      match skipWs rest with
      | ',' :: r => parseElems fuel r (acc ++ [v])
      | ']' :: r => some (.arr (acc ++ [v]), r)
      | _ => none
/-- The members of a non-empty object, up to and including the closing brace. -/
def parseMembers : Nat → List Char → List (String × JsVal) → Option (JsVal × List Char)
  | 0, _, _ => none
  | fuel + 1, cs, acc =>
    match skipWs cs with
    | '"' :: rest =>
      match readString (rest.length + 1) rest [] with
      | none => none
      | some (k, r1) =>
        match skipWs r1 with
        | ':' :: r2 =>
          match parseValue fuel r2 with
          | none => none
          | some (v, r3) =>
            match skipWs r3 with
            | ',' :: r4 => parseMembers fuel r4 (setField acc k v)
            | '}' :: r4 => some (.obj (setField acc k v), r4)
            | _ => none
        | _ => none
    | _ => none
end

/-- The error `JSON.parse` throws on text that is not JSON.  The message text is
engine-specific; only its being a `SyntaxError` is modelled. -/
def jsonSyntaxError : JsError :=
  { name := "SyntaxError", message := "Unexpected token in JSON" }

/-- The built-in `JSON.parse(text)`: the parsed value, or a thrown `SyntaxError`. -/
def jsonParse (text : String) : Except JsError JsVal :=
  match parseValue (2 * text.length + 2) text.toList with
  | none => .error jsonSyntaxError
  | some (v, rest) =>
    match skipWs rest with
    | [] => .ok v
    | _ :: _ => .error jsonSyntaxError

/-! ## The host runtime, the `EventSource` library and what the node does to them -/

/-- An `EventSource` object, identified by the order of its construction. -/
abbrev Handle := Nat

/-- The argument of `node.status`. -/
structure Status where
  fill : String
  shape : String
  text : String
  deriving DecidableEq, Repr

/-- The `payload` of an outbound message; `data = none` means the object has no `data` field. -/
structure Payload where
  uuid : String
  data : Option JsVal
  event : String

/-- The argument of `node.send`; `topic = none` means the object has no `topic` field. -/
structure OutMsg where
  msid : String
  topic : Option String
  payload : Payload

/-- An event the `EventSource` library delivers to a listener: `event.type`, `event.data`. -/
structure SseEvent where
  type : String
  data : String

/-- The two arrow functions of the input handler (lines 102 and 105), each closed over the
`eventSource` and the `uuid` of the request that created it. -/
inductive Callback where
  | onEvent (eventSource : Handle) (uuid : String) : Callback
  | onError (eventSource : Handle) (uuid : String) : Callback

/-- Calls the node makes on the host, on the console and on `EventSource` objects. -/
inductive Effect where
  | createNode : Effect
  | onInput : Effect
  | status (s : Status) : Effect
  | send (m : OutMsg) : Effect
  | nodeError (text : String) : Effect
  | logError (e : JsError) : Effect
  | logDebug (text : String) : Effect
  | consoleError (e : JsError) : Effect
  | newEventSource (url : JsVal) (headers : JsVal) (result : Except JsError Handle) : Effect
  | addListener (eventSource : Handle) (name : String) (cb : Callback) : Effect
  | close (eventSource : Handle) : Effect
  | done : Effect

/-- What the surroundings decide: the result of `JSON.parse`; for
`new EventSource(url, { withCredentials: true, headers })` the error it throws, if any, and
the state in which it leaves the `headers` object it was given; and the identifier returned
by the n-th call of `RED.util.generateId()`. -/
structure Env where
  jsonParse : String → Except JsError JsVal
  openStream : JsVal → JsVal → Option JsError
  headersAfter : JsVal → JsVal → JsVal
  generateId : Nat → String

/-- The node configuration read by the constructor.  `headers` is the JSON text typed in
the editor, `none` when the property is absent. -/
structure Config where
  event : String
  output : String
  headers : Option String

/-- The fields the constructor stores on `this`. -/
structure Node where
  event : String
  output : String
  headers : JsVal
  eventSources : List (String × Handle)

/-- The node together with the bookkeeping of the surroundings: the identity of the next
`EventSource` object, the number of message ids generated, and the calls made so far. -/
structure World where
  node : Node
  nextHandle : Nat
  idCount : Nat
  trace : List Effect

/-- Records a call. -/
def World.emit (w : World) (e : Effect) : World :=
  { w with trace := w.trace ++ [e] }

/-- The inbound `msg.payload` object: `payload.url`, `payload.uuid`, `payload.headers`
(`undefined` when a property is absent).  The uuid is a string, as the interface requires. -/
structure Request where
  url : JsVal
  uuid : String
  headers : JsVal

/-- The inbound message; `payload = none` when `msg.payload` is `undefined` or `null`. -/
structure InMsg where
  payload : Option Request

/-! ## The registry object `node.eventSources` -/

/-- The property names every plain object inherits from `Object.prototype`. -/
def objectPrototypeKeys : List String :=
  ["constructor", "__defineGetter__", "__defineSetter__", "hasOwnProperty",
   "__lookupGetter__", "__lookupSetter__", "isPrototypeOf", "propertyIsEnumerable",
   "toString", "valueOf", "__proto__", "toLocaleString"]

/-- The result of reading `obj[key]` on the registry: an own property holding a handle, a
property inherited from `Object.prototype` (a function, or the prototype itself for
`__proto__`), or `undefined`. -/
inductive Slot where
  | own (h : Handle) : Slot
  | inherited (name : String) : Slot
  | missing : Slot
  deriving DecidableEq, Repr

/-- `ToBoolean` of a property read: objects and functions are truthy, `undefined` is not. -/
def Slot.truthy : Slot → Bool
  | .own _ => true
  | .inherited _ => true
  | .missing => false

/-- The property read `node.eventSources[uuid]` on the object created by `{}`: own
properties first, then the prototype chain. -/
def getProp (o : List (String × Handle)) (key : String) : Slot :=
  match o.lookup key with
  | some h => .own h
  | none => if key ∈ objectPrototypeKeys then .inherited key else .missing

/-- The assignment `node.eventSources[uuid] = eventSource`.  It is reached only after
`getProp` was falsy, so the key is not an `Object.prototype` name and the assignment defines
or overwrites an own property. -/
def setProp (o : List (String × Handle)) (key : String) (h : Handle) : List (String × Handle) :=
  if o.any (fun p => p.1 == key) then o.map (fun p => if p.1 == key then (key, h) else p)
  else o ++ [(key, h)]

/-- The statement `delete node.eventSources[uuid]`: removes the own property, if any. -/
def deleteProp (o : List (String × Handle)) (key : String) : List (String × Handle) :=
  o.filter (fun p => !(p.1 == key))

/-- The built-in `Object.keys(node.eventSources)`. -/
def objectKeys (o : List (String × Handle)) : List String :=
  o.map Prod.fst

/-! ## The functions of `sse-client.js` -/

/-- Lines 3-9, `updateStatus(node)`. -/
def updateStatus (w : World) : World :=
  w.emit (.status
    { fill := "green"
      shape := "dot"
      text := "active clients: " ++ toString (objectKeys w.node.eventSources).length })

/-- The call `RED.util.generateId()`. -/
def generateId (env : Env) (w : World) : String × World :=
  (env.generateId w.idCount, { w with idCount := w.idCount + 1 })

/-- Line 24, the expression `node.output == 'json' ? JSON.parse(event.data) : event.data`. -/
def decodeExpr (env : Env) (output : String) (data : String) : Except JsError JsVal :=
  if output = "json" then env.jsonParse data else .ok (.str data)

/-- Lines 22-27, the `try`/`catch` around the decoding: the value of `data` afterwards, or
the error the statement lets through. -/
def decodeTry (env : Env) (output : String) (data : String) : Except JsError JsVal :=
  match decodeExpr env output data with
  | .ok v => .ok v
  | .error _ => .ok (.str data)

/-- Lines 19-34, `handleEvent(RED, node, event, eventSource, uuid)`.  The function is called
as a plain function of a non-strict module, so `this.url` reads the global object and the
debug line shows `undefined`.  The result is the new world and the error thrown, if any. -/
def handleEvent (env : Env) (w : World) (event : SseEvent) (_eventSource : Handle)
    (uuid : String) : World × Option JsError :=
  let w1 := w.emit (.logDebug ("Received event: from undefined - " ++ event.type))
  match decodeTry env w1.node.output event.data with
  | .error e => (w1, some e)
  | .ok data =>
    let (id, w2) := generateId env w1
    (w2.emit (.send
      { msid := id
        topic := some event.type
        payload := { uuid := uuid, data := some data, event := "message" } }), none)

/-- Lines 44-56, `handleEventSourceError(RED, node, err, eventSource, uuid)`. -/
def handleEventSourceError (env : Env) (w : World) (eventSource : Handle)
    (uuid : String) : World × Option JsError :=
  let w1 := w.emit (.close eventSource)
  let w2 := { w1 with node := { w1.node with
    eventSources := deleteProp w1.node.eventSources uuid } }
  let w3 := updateStatus w2
  let (id, w4) := generateId env w3
  (w4.emit (.send
    { msid := id
      topic := none
      payload := { uuid := uuid, data := none, event := "close" } }), none)

/-- Runs a registered listener on a delivered event. -/
def runCallback (env : Env) (w : World) (cb : Callback) (event : SseEvent) :
    World × Option JsError :=
  match cb with
  | .onEvent eventSource uuid => handleEvent env w event eventSource uuid
  | .onError eventSource uuid => handleEventSourceError env w eventSource uuid

/-- How the `try` block of the input handler ends. -/
inductive TryResult where
  | completed : TryResult
  | returned : TryResult
  | threw (e : JsError) : TryResult

/-- The `TypeError` of reading a property of `undefined` (line 90, `msg.payload.url`). -/
def payloadTypeError : JsError :=
  { name := "TypeError", message := "Cannot read properties of undefined (reading 'url')" }

/-- The `ReferenceError` of evaluating an identifier that has no binding. -/
def referenceError (ident : String) : JsError :=
  { name := "ReferenceError", message := ident ++ " is not defined" }

/-- The value of `node.headers` once `new EventSource(url, ...)` has run on it: an object
or array is in the state the constructor left it in, a primitive is passed by value and stays
what it was. -/
def headersAfterCall (env : Env) (url : JsVal) (headers : JsVal) : JsVal :=
  match headers with
  | .obj fields => env.headersAfter url (.obj fields)
  | .arr items => env.headersAfter url (.arr items)
  | other => other

/-- The node once line 99 has evaluated `new EventSource(url, ...)`, whether it threw or not.
When `msg.payload.headers` is truthy the constructor was given the message's object and the
node is as before; otherwise it was given `node.headers` itself. -/
def nodeAfterCall (env : Env) (node : Node) (p : Request) : Node :=
  if p.headers.truthy then node
  else { node with headers := headersAfterCall env p.url node.headers }

/-- Lines 90-109, the `try` block of the input handler. -/
def inputTry (env : Env) (w : World) (msg : InMsg) : World × TryResult :=
  match msg.payload with
  | none => (w, .threw payloadTypeError)
  | some p =>
    let url := p.url
    let uuid := p.uuid
    if (getProp w.node.eventSources uuid).truthy then
      (w.emit (.nodeError ("Duplicate uuid refused: " ++ uuid)), .returned)
    else
      let headers := jsOr p.headers w.node.headers
      let w0 := { w with node := nodeAfterCall env w.node p }
      match env.openStream url headers with
      | some e => (w0.emit (.newEventSource url headers (.error e)), .threw e)
      | none =>
        let eventSource := w0.nextHandle
        let w1 := ({ w0 with nextHandle := w0.nextHandle + 1 }).emit
          (.newEventSource url headers (.ok eventSource))
        let w2 := w1.emit (.addListener eventSource w1.node.event (.onEvent eventSource uuid))
        let w3 := w2.emit (.addListener eventSource "error" (.onError eventSource uuid))
        let w4 := { w3 with node := { w3.node with
          eventSources := setProp w3.node.eventSources uuid eventSource } }
        (updateStatus w4, .completed)

/-- Lines 111-113, the `catch` block of the input handler.  After `RED.log.error(error)` it
evaluates `updateNodeStatus(this, 'error')`; the module declares `updateStatus`,
`handleEvent`, `handleEventSourceError` and `handleEventSourceClose` and nothing named
`updateNodeStatus`, so the evaluation throws a `ReferenceError` before any call is made. -/
def inputCatch (w : World) (error : JsError) : World × Option JsError :=
  let w1 := w.emit (.logError error)
  (w1, some (referenceError "updateNodeStatus"))

/-- Lines 88-117, the listener of `'input'`: `try`, `catch`, `finally`.  `done` tells whether
the host passed a `done` function.  The result is the new world and the error the listener
throws to the host, if any. -/
def inputHandler (env : Env) (w : World) (msg : InMsg) (done : Bool) : World × Option JsError :=
  let r := inputTry env w msg
  let c := match r.2 with
    | .threw e => inputCatch r.1 e
    | .completed => (r.1, none)
    | .returned => (r.1, none)
  ((if done then c.1.emit .done else c.1), c.2)

/-- The outcome of the constructor: the `try` block ran to its end and the node listens for
input, or the `catch` block ran and no input listener was registered. -/
inductive Created where
  | live (w : World) : Created
  | dead (trace : List Effect) : Created

/-- Line 83, `config.headers ? JSON.parse(config.headers) : {}`. -/
def defaultHeaders (env : Env) (config : Config) : Except JsError JsVal :=
  match config.headers with
  | none => .ok (.obj [])
  | some s => if s = "" then .ok (.obj []) else env.jsonParse s

/-- Lines 77-133, `CreateSseClientNode(config)`. -/
def CreateSseClientNode (env : Env) (config : Config) : Created :=
  match defaultHeaders env config with
  | .error e =>
    .dead [.createNode,
      .status { fill := "red", shape := "dot", text := e.message },
      .consoleError e, .logError e]
  | .ok headers =>
    .live (updateStatus
      { node :=
          { event := config.event
            output := config.output
            headers := headers
            eventSources := [] }
        nextHandle := 0
        idCount := 0
        trace := [.createNode, .onInput] })

/-- The calls made by the constructor. -/
def Created.trace : Created → List Effect
  | .live w => w.trace
  | .dead t => t

/-! ## Observations on a trace -/

/-- The status last pushed to the host. -/
def lastStatus : List Effect → Option Status
  | [] => none
  | e :: rest =>
    match lastStatus rest with
    | some s => some s
    | none => match e with
      | .status s => some s
      | _ => none

/-- The outbound messages, in order. -/
def sentMessages : List Effect → List OutMsg
  | [] => []
  | .send m :: rest => m :: sentMessages rest
  | _ :: rest => sentMessages rest

/-- The number of `new EventSource` evaluations, whether or not they threw. -/
def constructions : List Effect → Nat
  | [] => 0
  | .newEventSource _ _ _ :: rest => constructions rest + 1
  | _ :: rest => constructions rest

/-- The handles on which `close()` was called, in order. -/
def closedHandles : List Effect → List Handle
  | [] => []
  | .close h :: rest => h :: closedHandles rest
  | _ :: rest => closedHandles rest

/-- The `(url, headers)` arguments of the `new EventSource` evaluations, in order. -/
def constructedWith : List Effect → List (JsVal × JsVal)
  | [] => []
  | .newEventSource url headers _ :: rest => (url, headers) :: constructedWith rest
  | _ :: rest => constructedWith rest

/-! ## A standard environment and sequences of events -/

/-- What the `eventsource` library does to the `headers` object before it connects:
`if (headers && headers['Last-Event-ID']) delete headers['Last-Event-ID']`. -/
def dropLastEventId (headers : JsVal) : JsVal :=
  match headers with
  | .obj fields =>
    match fields.lookup "Last-Event-ID" with
    | some v =>
      if v.truthy then .obj (fields.filter (fun f => !(f.1 == "Last-Event-ID"))) else headers
    | none => headers
  | other => other

/-- An environment: the reference `JSON.parse`, a connection constructor that removes a
truthy `Last-Event-ID` from the headers object and then throws a `TypeError` exactly when the
url is not a string, and message ids `id0`, `id1`, ... -/
def stdEnv : Env :=
  { jsonParse := jsonParse
    openStream := fun url _ =>
      match url with
      | .str _ => none
      | _ => some { name := "TypeError", message := "The \"url\" argument must be of type string" }
    headersAfter := fun _ headers => dropLastEventId headers
    generateId := fun n => "id" ++ toString n }

/-- What can happen to a live node: an input message arrives, or the connection currently
registered under `uuid` reports an error. -/
inductive Action where
  | input (msg : InMsg) : Action
  | streamError (uuid : String) : Action

/-- One reaction of the node. -/
def step (env : Env) (w : World) : Action → World
  | .input msg => (inputHandler env w msg true).1
  | .streamError uuid =>
    match w.node.eventSources.lookup uuid with
    | some h => (handleEventSourceError env w h uuid).1
    | none => w

/-- The reactions to a sequence of events, oldest first. -/
def run (env : Env) (w : World) (actions : List Action) : World :=
  actions.foldl (step env) w

/-- An input message asking to open `url` under `uuid` with no headers of its own. -/
def openRequest (uuid : String) (url : String) : InMsg :=
  { payload := some { url := .str url, uuid := uuid, headers := .undefined } }

/-- Whether an action is an input message. -/
def Action.isInput : Action → Bool
  | .input _ => true
  | .streamError _ => false

/-- The number of open requests in a sequence. -/
def openCount (actions : List Action) : Nat :=
  (actions.filter Action.isInput).length

/-- The number of stream errors in a sequence. -/
def closeCount (actions : List Action) : Nat :=
  (actions.filter (fun a => !a.isInput)).length

/-- The sequences of the count law, read against the world they act on and the uuids
requested so far: every input message has a payload, its uuid was not requested before and
is no `Object.prototype` name, and its construction does not throw; every stream error names
a uuid that is open when it happens. -/
def admissible (env : Env) : World → List String → List Action → Prop
  | _, _, [] => True
  | w, seen, .input msg :: rest =>
    match msg.payload with
    | none => False
    | some p =>
      p.uuid ∉ seen ∧ p.uuid ∉ objectPrototypeKeys
        ∧ env.openStream p.url (jsOr p.headers w.node.headers) = none
        ∧ admissible env (step env w (.input msg)) (p.uuid :: seen) rest
  | w, seen, .streamError uuid :: rest =>
    uuid ∈ objectKeys w.node.eventSources
      ∧ admissible env (step env w (.streamError uuid)) seen rest

/-- A freshly created node with no configured headers. -/
def freshWorld : World :=
  updateStatus
    { node := { event := "message", output := "json", headers := .obj [], eventSources := [] }
      nextHandle := 0
      idCount := 0
      trace := [.createNode, .onInput] }

/-! ## Worlds and requests used as concrete instances -/

/-- The fresh node after one request that opened `http://localhost/a` under `a`. -/
def worldA : World :=
  run stdEnv freshWorld [.input (openRequest "a" "http://localhost/a")]

/-- A request for uuid `a`. -/
def requestA : Request :=
  { url := .str "http://localhost/again", uuid := "a", headers := .undefined }

/-- A configuration whose `headers` text is not JSON. -/
def malformedConfig : Config :=
  { event := "message", output := "json", headers := some "\x7bbad" }

/-- A configuration whose `headers` text is a JSON object with one header `B`. -/
def headerConfig : Config :=
  { event := "message", output := "raw", headers := some "\x7b\"B\": \"2\"\x7d" }

/-- The node created from `headerConfig`. -/
def headerWorld : World :=
  updateStatus
    { node := { event := "message", output := "raw", headers := .obj [("B", .str "2")],
                eventSources := [] }
      nextHandle := 0
      idCount := 0
      trace := [.createNode, .onInput] }

/-- A request that brings its own header `A`. -/
def requestWithHeaders : Request :=
  { url := .str "http://localhost/h", uuid := "h", headers := .obj [("A", .str "1")] }

/-- A configuration whose `headers` text carries a `Last-Event-ID` next to a header `B`. -/
def lastEventIdConfig : Config :=
  { event := "message", output := "raw",
    headers := some "\x7b\"Last-Event-ID\": \"5\", \"B\": \"2\"\x7d" }

/-- The node created from `lastEventIdConfig`. -/
def lastEventIdWorld : World :=
  updateStatus
    { node := { event := "message", output := "raw",
                headers := .obj [("Last-Event-ID", .str "5"), ("B", .str "2")],
                eventSources := [] }
      nextHandle := 0
      idCount := 0
      trace := [.createNode, .onInput] }

/-- Two opens, under `a` and `b`, that bring no headers of their own. -/
def twoDefaultOpens : List Action :=
  [.input (openRequest "a" "http://localhost/a"),
   .input (openRequest "b" "http://localhost/b")]

/-- The standard environment with a constructor that leaves the headers object alone. -/
def pureEnv : Env :=
  { stdEnv with headersAfter := fun _ headers => headers }

/-- The names of the entries of a header mapping. -/
def headerNames : JsVal → List String
  | .obj fields => fields.map Prod.fst
  | _ => []

/-- Three opens under `a`, `b`, `c` followed by a stream error on `b`. -/
def threeOpensOneError : List Action :=
  [.input (openRequest "a" "http://localhost/a"),
   .input (openRequest "b" "http://localhost/b"),
   .input (openRequest "c" "http://localhost/c"),
   .streamError "b"]

/-- An open under `a` followed by an open under the distinct uuid `constructor`. -/
def opensWithPrototypeName : List Action :=
  [.input (openRequest "a" "http://localhost/a"),
   .input (openRequest "constructor" "http://localhost/c")]

/-- A request whose `payload.url` is missing, for which the standard constructor throws. -/
def requestNoUrl : Request :=
  { url := .undefined, uuid := "b", headers := .undefined }

/-! ## Lemmas on traces and on the registry -/

theorem lastStatus_append (t u : List Effect) :
    lastStatus (t ++ u) = match lastStatus u with
      | some s => some s
      | none => lastStatus t := by
  induction t with
  | nil => cases h : lastStatus u <;> simp [lastStatus, h]
  | cons e t ih =>
    cases h : lastStatus u with
    | none => simp [lastStatus, ih, h]
    | some s => simp [lastStatus, ih, h]

theorem sentMessages_append (t u : List Effect) :
    sentMessages (t ++ u) = sentMessages t ++ sentMessages u := by
  induction t with
  | nil => rfl
  | cons e t ih => cases e <;> simp [sentMessages, ih]

theorem constructions_append (t u : List Effect) :
    constructions (t ++ u) = constructions t + constructions u := by
  induction t with
  | nil => simp [constructions]
  | cons e t ih => cases e <;> simp [constructions, ih]; omega

theorem closedHandles_append (t u : List Effect) :
    closedHandles (t ++ u) = closedHandles t ++ closedHandles u := by
  induction t with
  | nil => rfl
  | cons e t ih => cases e <;> simp [closedHandles, ih]

theorem constructedWith_append (t u : List Effect) :
    constructedWith (t ++ u) = constructedWith t ++ constructedWith u := by
  induction t with
  | nil => rfl
  | cons e t ih => cases e <;> simp [constructedWith, ih]

theorem lookup_cons_self (o : List (String × Handle)) (a : String) (b : Handle) :
    List.lookup a ((a, b) :: o) = some b := by
  simp [List.lookup]

theorem lookup_cons_ne (o : List (String × Handle)) (k a : String) (b : Handle) (h : k ≠ a) :
    List.lookup k ((a, b) :: o) = List.lookup k o := by
  have hb : (k == a) = false := by simpa using h
  simp [List.lookup, hb]

theorem lookup_of_mem_keys (o : List (String × Handle)) (k : String)
    (h : k ∈ objectKeys o) : ∃ v, o.lookup k = some v := by
  induction o with
  | nil => simp [objectKeys] at h
  | cons p o ih =>
    obtain ⟨a, b⟩ := p
    by_cases hk : k = a
    · exact ⟨b, by rw [hk]; exact lookup_cons_self o a b⟩
    · have hmem : k ∈ objectKeys o := by
        simp [objectKeys] at h
        rcases h with h | h
        · exact absurd h hk
        · simpa [objectKeys] using h
      obtain ⟨v, hv⟩ := ih hmem
      exact ⟨v, by rw [lookup_cons_ne o k a b hk]; exact hv⟩

theorem mem_keys_of_lookup (o : List (String × Handle)) (k : String) (v : Handle)
    (h : o.lookup k = some v) : k ∈ objectKeys o := by
  induction o with
  | nil => simp [List.lookup] at h
  | cons p o ih =>
    obtain ⟨a, b⟩ := p
    by_cases hk : k = a
    · simp [objectKeys, hk]
    · rw [lookup_cons_ne o k a b hk] at h
      have := ih h
      simp [objectKeys] at this ⊢
      exact Or.inr this

theorem lookup_none_of_not_mem_keys (o : List (String × Handle)) (k : String)
    (h : k ∉ objectKeys o) : o.lookup k = none := by
  cases hl : o.lookup k with
  | none => rfl
  | some v => exact absurd (mem_keys_of_lookup o k v hl) h

theorem getProp_truthy_of_mem_keys (o : List (String × Handle)) (k : String)
    (h : k ∈ objectKeys o) : (getProp o k).truthy = true := by
  obtain ⟨v, hv⟩ := lookup_of_mem_keys o k h
  simp [getProp, hv, Slot.truthy]

theorem getProp_falsy_iff (o : List (String × Handle)) (k : String) :
    (getProp o k).truthy = false ↔ k ∉ objectKeys o ∧ k ∉ objectPrototypeKeys := by
  constructor
  · intro h
    cases hl : o.lookup k with
    | some v => simp [getProp, hl, Slot.truthy] at h
    | none =>
      refine ⟨fun hm => ?_, fun hp => ?_⟩
      · obtain ⟨v, hv⟩ := lookup_of_mem_keys o k hm
        simp [hl] at hv
      · simp [getProp, hl, hp, Slot.truthy] at h
  · rintro ⟨h1, h2⟩
    simp [getProp, lookup_none_of_not_mem_keys o k h1, h2, Slot.truthy]

theorem not_mem_keys_deleteProp (o : List (String × Handle)) (k : String) :
    k ∉ objectKeys (deleteProp o k) := by
  simp [objectKeys, deleteProp, List.mem_filter]

theorem lookup_deleteProp_ne (o : List (String × Handle)) (k j : String) (h : j ≠ k) :
    (deleteProp o k).lookup j = o.lookup j := by
  induction o with
  | nil => rfl
  | cons p o ih =>
    obtain ⟨a, b⟩ := p
    by_cases ha : a = k
    · have hja : j ≠ a := by rw [ha]; exact h
      have hd : deleteProp ((a, b) :: o) k = deleteProp o k := by
        simp [deleteProp, ha]
      rw [hd, ih, lookup_cons_ne o j a b hja]
    · have hd : deleteProp ((a, b) :: o) k = (a, b) :: deleteProp o k := by
        simp [deleteProp, ha]
      rw [hd]
      by_cases hja : j = a
      · rw [hja, lookup_cons_self, lookup_cons_self]
      · rw [lookup_cons_ne _ j a b hja, lookup_cons_ne _ j a b hja]
        exact ih

theorem deleteProp_of_not_mem (o : List (String × Handle)) (k : String)
    (h : k ∉ objectKeys o) : deleteProp o k = o := by
  induction o with
  | nil => rfl
  | cons p o ih =>
    obtain ⟨a, b⟩ := p
    simp [objectKeys] at h
    have ha : ¬ a = k := fun e => h.1 e.symm
    have ih2 := ih (by simpa [objectKeys] using h.2)
    simp [deleteProp, ha] at ih2 ⊢
    exact ih2

theorem length_deleteProp (o : List (String × Handle)) (k : String)
    (hwf : (objectKeys o).Nodup) (hk : k ∈ objectKeys o) :
    (objectKeys (deleteProp o k)).length + 1 = (objectKeys o).length := by
  induction o with
  | nil => simp [objectKeys] at hk
  | cons p o ih =>
    obtain ⟨a, b⟩ := p
    simp only [objectKeys, List.map_cons, List.nodup_cons] at hwf
    by_cases ha : a = k
    · have hnot : k ∉ objectKeys o := by rw [← ha]; exact hwf.1
      have hd : deleteProp ((a, b) :: o) k = o := by
        have := deleteProp_of_not_mem o k hnot
        simp [deleteProp, ha] at this ⊢
        exact this
      rw [hd]
      simp [objectKeys]
    · have hmem : k ∈ objectKeys o := by
        simp [objectKeys] at hk
        rcases hk with hk | hk
        · exact absurd hk.symm ha
        · simpa [objectKeys] using hk
      have hd : deleteProp ((a, b) :: o) k = (a, b) :: deleteProp o k := by
        simp [deleteProp, ha]
      rw [hd]
      have := ih hwf.2 hmem
      simp [objectKeys] at this ⊢
      exact this

theorem setProp_of_not_mem (o : List (String × Handle)) (k : String) (h : Handle)
    (hk : k ∉ objectKeys o) : setProp o k h = o ++ [(k, h)] := by
  have : o.any (fun p => p.1 == k) = false := by
    rw [Bool.eq_false_iff]
    intro hany
    simp only [List.any_eq_true, beq_iff_eq] at hany
    obtain ⟨q, hq, hqk⟩ := hany
    exact hk (by simpa [objectKeys] using ⟨q.2, by rw [← hqk]; exact hq⟩)
  simp [setProp, this]

theorem lookup_append_new (o : List (String × Handle)) (k : String) (h : Handle)
    (hk : k ∉ objectKeys o) : (o ++ [(k, h)]).lookup k = some h := by
  induction o with
  | nil => exact lookup_cons_self [] k h
  | cons p o ih =>
    obtain ⟨a, b⟩ := p
    simp [objectKeys] at hk
    have hka : k ≠ a := hk.1
    rw [List.cons_append, lookup_cons_ne _ k a b hka]
    exact ih (by simpa [objectKeys] using hk.2)

theorem lookup_append_other (o : List (String × Handle)) (k j : String) (h : Handle)
    (hj : j ≠ k) : (o ++ [(k, h)]).lookup j = o.lookup j := by
  induction o with
  | nil => rw [List.nil_append, lookup_cons_ne [] j k h hj]
  | cons p o ih =>
    obtain ⟨a, b⟩ := p
    by_cases hja : j = a
    · rw [hja, List.cons_append, lookup_cons_self, lookup_cons_self]
    · rw [List.cons_append, lookup_cons_ne _ j a b hja, lookup_cons_ne _ j a b hja]
      exact ih

theorem nodeAfterCall_eventSources (env : Env) (node : Node) (p : Request) :
    (nodeAfterCall env node p).eventSources = node.eventSources := by
  unfold nodeAfterCall; cases p.headers.truthy <;> simp

theorem nodeAfterCall_event (env : Env) (node : Node) (p : Request) :
    (nodeAfterCall env node p).event = node.event := by
  unfold nodeAfterCall; cases p.headers.truthy <;> simp

theorem nodeAfterCall_output (env : Env) (node : Node) (p : Request) :
    (nodeAfterCall env node p).output = node.output := by
  unfold nodeAfterCall; cases p.headers.truthy <;> simp

theorem nodeAfterCall_of_truthy (env : Env) (node : Node) (p : Request)
    (h : p.headers.truthy = true) : nodeAfterCall env node p = node := by
  simp [nodeAfterCall, h]

theorem nodeAfterCall_headers_of_falsy (env : Env) (node : Node) (p : Request)
    (h : p.headers.truthy = false) :
    (nodeAfterCall env node p).headers = headersAfterCall env p.url node.headers := by
  simp [nodeAfterCall, h]

/-- The input handler on a request that reaches line 107: the duplicate test is falsy and
the constructor does not throw. -/
theorem inputHandler_open (env : Env) (w : World) (p : Request) (done : Bool)
    (hnew : (getProp w.node.eventSources p.uuid).truthy = false)
    (hok : env.openStream p.url (jsOr p.headers w.node.headers) = none) :
    inputHandler env w { payload := some p } done =
      ({ node := { nodeAfterCall env w.node p with
                    eventSources := w.node.eventSources ++ [(p.uuid, w.nextHandle)] }
         nextHandle := w.nextHandle + 1
         idCount := w.idCount
         trace := w.trace ++
           [Effect.newEventSource p.url (jsOr p.headers w.node.headers) (.ok w.nextHandle),
            Effect.addListener w.nextHandle w.node.event (.onEvent w.nextHandle p.uuid),
            Effect.addListener w.nextHandle "error" (.onError w.nextHandle p.uuid),
            Effect.status
              { fill := "green", shape := "dot",
                text := "active clients: " ++
                  toString ((objectKeys w.node.eventSources).length + 1) }] ++
           (if done then [Effect.done] else []) }, none) := by
  have hk := ((getProp_falsy_iff _ _).1 hnew).1
  have hset := setProp_of_not_mem w.node.eventSources p.uuid w.nextHandle hk
  cases done <;>
    simp [inputHandler, inputTry, hnew, hok, updateStatus, World.emit, hset, objectKeys,
      nodeAfterCall_eventSources, nodeAfterCall_event]

/-- The input handler on a request for which the constructor is reached and throws `e`:
it logs `e`, calls `done` when there is one, pushes no status and throws the
`ReferenceError` of the `catch` block. -/
theorem inputHandler_construct_throws (env : Env) (w : World) (p : Request) (done : Bool)
    (e : JsError)
    (hnew : (getProp w.node.eventSources p.uuid).truthy = false)
    (hthrow : env.openStream p.url (jsOr p.headers w.node.headers) = some e) :
    inputHandler env w { payload := some p } done =
      ({ w with
           node := nodeAfterCall env w.node p
           trace := w.trace ++
             [Effect.newEventSource p.url (jsOr p.headers w.node.headers) (.error e),
              Effect.logError e] ++ (if done then [Effect.done] else []) },
       some (referenceError "updateNodeStatus")) := by
  cases done <;> simp [inputHandler, inputTry, inputCatch, hnew, hthrow, World.emit]

/-- The input handler on a request whose uuid is an `Object.prototype` name: the property
read finds the inherited member, and the request is refused as a duplicate whatever the
registry holds. -/
theorem inputHandler_prototype_name (env : Env) (w : World) (p : Request) (done : Bool)
    (hproto : p.uuid ∈ objectPrototypeKeys) :
    inputHandler env w { payload := some p } done =
      ({ w with trace := w.trace ++
           Effect.nodeError ("Duplicate uuid refused: " ++ p.uuid) ::
             (if done then [Effect.done] else []) }, none) := by
  have ht : (getProp w.node.eventSources p.uuid).truthy = true := by
    cases hl : w.node.eventSources.lookup p.uuid <;> simp [getProp, hl, hproto, Slot.truthy]
  cases done <;> simp [inputHandler, inputTry, ht, World.emit]

theorem nodeAfterCall_eq (env : Env) (node : Node) (p : Request) :
    nodeAfterCall env node p = { node with headers := (nodeAfterCall env node p).headers } := by
  unfold nodeAfterCall; cases p.headers.truthy <;> simp

/-- The field `node.headers` after the input handler, in every case. -/
theorem inputHandler_headers (env : Env) (w : World) (msg : InMsg) (done : Bool) :
    (inputHandler env w msg done).1.node.headers =
      match msg.payload with
      | none => w.node.headers
      | some p =>
        if (getProp w.node.eventSources p.uuid).truthy then w.node.headers
        else (nodeAfterCall env w.node p).headers := by
  cases hp : msg.payload with
  | none => cases done <;> simp [inputHandler, inputTry, inputCatch, hp, World.emit]
  | some p =>
    cases hdup : (getProp w.node.eventSources p.uuid).truthy <;>
      cases hopen : env.openStream p.url (jsOr p.headers w.node.headers) <;>
      cases done <;>
      simp [inputHandler, inputTry, inputCatch, hp, hdup, hopen, World.emit, updateStatus]

theorem handleEventSourceError_headers (env : Env) (w : World) (h : Handle) (uuid : String) :
    (handleEventSourceError env w h uuid).1.node.headers = w.node.headers := by
  simp [handleEventSourceError, updateStatus, generateId, World.emit]

theorem headersAfterCall_of_pure (env : Env) (hpure : ∀ url h, env.headersAfter url h = h)
    (url h : JsVal) : headersAfterCall env url h = h := by
  cases h <;> simp [headersAfterCall, hpure]

theorem step_headers_of_pure (env : Env) (hpure : ∀ url h, env.headersAfter url h = h)
    (w : World) (a : Action) : (step env w a).node.headers = w.node.headers := by
  cases a with
  | input msg =>
    simp only [step, inputHandler_headers]
    cases hp : msg.payload with
    | none => rfl
    | some p =>
      cases hdup : (getProp w.node.eventSources p.uuid).truthy
      · cases ht : p.headers.truthy
        · simp [nodeAfterCall, ht, headersAfterCall_of_pure env hpure]
        · simp [nodeAfterCall, ht]
      · simp [hdup]
  | streamError uuid =>
    cases hl : w.node.eventSources.lookup uuid with
    | none => simp only [step, hl]
    | some h =>
      simp only [step, hl]
      exact handleEventSourceError_headers env w h uuid

theorem run_headers_of_pure (env : Env) (hpure : ∀ url h, env.headersAfter url h = h)
    (actions : List Action) :
    ∀ w : World, (run env w actions).node.headers = w.node.headers := by
  induction actions with
  | nil => intro w; rfl
  | cons a rest ih =>
    intro w
    have hrun : run env w (a :: rest) = run env (step env w a) rest := rfl
    rw [hrun, ih, step_headers_of_pure env hpure]

theorem step_open_registry (env : Env) (w : World) (p : Request)
    (hnew : (getProp w.node.eventSources p.uuid).truthy = false)
    (hok : env.openStream p.url (jsOr p.headers w.node.headers) = none) :
    (step env w (.input { payload := some p })).node.eventSources
      = w.node.eventSources ++ [(p.uuid, w.nextHandle)] := by
  simp only [step, inputHandler_open env w p true hnew hok]

theorem step_streamError_open (env : Env) (w : World) (u : String)
    (hopen : u ∈ objectKeys w.node.eventSources) :
    (step env w (.streamError u)).node.eventSources = deleteProp w.node.eventSources u
      ∧ lastStatus (step env w (.streamError u)).trace
          = some { fill := "green", shape := "dot",
                   text := "active clients: " ++
                     toString (objectKeys (deleteProp w.node.eventSources u)).length } := by
  obtain ⟨h, hh⟩ := lookup_of_mem_keys _ _ hopen
  constructor
  · simp [step, hh, handleEventSourceError, updateStatus, generateId, World.emit]
  · simp [step, hh, handleEventSourceError, updateStatus, generateId, World.emit,
      lastStatus_append, lastStatus]

theorem keys_deleteProp_sublist (o : List (String × Handle)) (k : String) :
    (objectKeys (deleteProp o k)).Sublist (objectKeys o) := by
  unfold objectKeys deleteProp
  exact List.Sublist.map _ (List.filter_sublist o)

/-- The count law on sequences that stay off the `Object.prototype` names: the number of keys
grows by the opens and shrinks by the stream errors. -/
theorem count_law_off_prototype_names (env : Env) (actions : List Action) :
    ∀ (w : World) (seen : List String),
      (objectKeys w.node.eventSources).Nodup →
      (∀ k ∈ objectKeys w.node.eventSources, k ∈ seen) →
      admissible env w seen actions →
      (objectKeys (run env w actions).node.eventSources).length + closeCount actions
        = (objectKeys w.node.eventSources).length + openCount actions := by
  induction actions with
  | nil => intro w seen _ _ _; simp [run, closeCount, openCount]
  | cons a rest ih =>
    intro w seen hnd hsub hadm
    have hrun : run env w (a :: rest) = run env (step env w a) rest := rfl
    cases a with
    | input msg =>
      cases hp : msg.payload with
      | none => simp [admissible, hp] at hadm
      | some p =>
        simp only [admissible, hp] at hadm
        obtain ⟨hseen, hproto, hok, hrest⟩ := hadm
        have hkey : p.uuid ∉ objectKeys w.node.eventSources := fun hm => hseen (hsub _ hm)
        have hnew := (getProp_falsy_iff _ _).2 ⟨hkey, hproto⟩
        have hmsg : msg = { payload := some p } := by
          cases msg; simp_all
        have hstep : (step env w (.input msg)).node.eventSources
            = w.node.eventSources ++ [(p.uuid, w.nextHandle)] := by
          simp only [step, hmsg, inputHandler_open env w p true hnew hok]
        have hkeys : objectKeys (step env w (.input msg)).node.eventSources
            = objectKeys w.node.eventSources ++ [p.uuid] := by
          rw [hstep]; simp [objectKeys]
        have hnd2 : (objectKeys (step env w (.input msg)).node.eventSources).Nodup := by
          rw [hkeys]
          exact (List.nodup_append.2 ⟨hnd, List.nodup_singleton _, by
            intro x hx hx2
            simp at hx2
            exact hkey (hx2 ▸ hx)⟩)
        have hsub2 : ∀ k ∈ objectKeys (step env w (.input msg)).node.eventSources,
            k ∈ p.uuid :: seen := by
          intro k hk
          rw [hkeys] at hk
          simp at hk ⊢
          rcases hk with hk | hk
          · exact Or.inr (hsub _ (by simpa [objectKeys] using hk))
          · exact Or.inl hk
        have := ih _ _ hnd2 hsub2 hrest
        rw [hrun, hkeys] at *
        simp [closeCount, openCount, Action.isInput] at this ⊢
        omega
    | streamError uuid =>
      simp only [admissible] at hadm
      obtain ⟨hopen, hrest⟩ := hadm
      obtain ⟨h, hh⟩ := lookup_of_mem_keys _ _ hopen
      have hstep : (step env w (.streamError uuid)).node.eventSources
          = deleteProp w.node.eventSources uuid := by
        simp [step, hh, handleEventSourceError, updateStatus, generateId, World.emit]
      have hlen := length_deleteProp _ _ hnd hopen
      have hnd2 : (objectKeys (step env w (.streamError uuid)).node.eventSources).Nodup := by
        rw [hstep]
        exact List.Nodup.sublist (keys_deleteProp_sublist _ _) hnd
      have hsub2 : ∀ k ∈ objectKeys (step env w (.streamError uuid)).node.eventSources,
          k ∈ seen := by
        intro k hk
        rw [hstep] at hk
        exact hsub _ ((keys_deleteProp_sublist _ _).subset hk)
      have := ih _ _ hnd2 hsub2 hrest
      rw [hrun]
      rw [hstep] at this
      simp [closeCount, openCount, Action.isInput] at this ⊢
      omega

/-! ## The claims -/

/-- C1: when the uuid of an input request is already a key of the registry, the input handler
calls `node.error` (and then `done`, when the host passed one) and nothing else: it evaluates
no `new EventSource`, closes no handle, and leaves the node, hence the registry with every
key and handle, as it was; it throws nothing. -/
theorem duplicate_uuid_refused (env : Env) (w : World) (p : Request) (done : Bool)
    (hkey : p.uuid ∈ objectKeys w.node.eventSources) :
    (inputHandler env w { payload := some p } done).1.trace =
        w.trace ++ Effect.nodeError ("Duplicate uuid refused: " ++ p.uuid) ::
          (if done then [Effect.done] else [])
      ∧ (inputHandler env w { payload := some p } done).2 = none
      ∧ constructions (inputHandler env w { payload := some p } done).1.trace
          = constructions w.trace
      ∧ closedHandles (inputHandler env w { payload := some p } done).1.trace
          = closedHandles w.trace
      ∧ (inputHandler env w { payload := some p } done).1.node = w.node
      ∧ (inputHandler env w { payload := some p } done).1.node.eventSources
          = w.node.eventSources := by
  have ht := getProp_truthy_of_mem_keys _ _ hkey
  cases done <;>
    simp [inputHandler, inputTry, ht, World.emit, constructions_append, closedHandles_append,
      constructions, closedHandles]

/-- Witness of C1: uuid `a` is open in `worldA`, and a second request for `a` leaves the
registry as it was. -/
theorem duplicate_uuid_refused_witness :
    "a" ∈ objectKeys worldA.node.eventSources
      ∧ (inputHandler stdEnv worldA { payload := some requestA } true).1.node.eventSources
          = worldA.node.eventSources :=
  ⟨by decide, (duplicate_uuid_refused stdEnv worldA requestA true (by decide)).2.2.2.2.2⟩

/-- C3: when `uuid` is open with handle `h`, `handleEventSourceError` closes `h`, pushes the
status whose text shows the count decremented by one, and sends exactly one message, whose
payload is the uuid and `event: 'close'` without a `data` field; afterwards `uuid` is not a
key of the registry, the registry has one key fewer and every other key keeps its handle. -/
theorem stream_error_closes_and_removes (env : Env) (w : World) (h : Handle) (uuid : String)
    (hwf : (objectKeys w.node.eventSources).Nodup)
    (hopen : w.node.eventSources.lookup uuid = some h) :
    (handleEventSourceError env w h uuid).1.trace =
        w.trace ++
          [Effect.close h,
           Effect.status
             { fill := "green", shape := "dot",
               text := "active clients: " ++
                 toString ((objectKeys w.node.eventSources).length - 1) },
           Effect.send
             { msid := env.generateId w.idCount, topic := none,
               payload := { uuid := uuid, data := none, event := "close" } }]
      ∧ (handleEventSourceError env w h uuid).2 = none
      ∧ uuid ∉ objectKeys (handleEventSourceError env w h uuid).1.node.eventSources
      ∧ (objectKeys (handleEventSourceError env w h uuid).1.node.eventSources).length + 1
          = (objectKeys w.node.eventSources).length
      ∧ (∀ k, k ≠ uuid →
          (handleEventSourceError env w h uuid).1.node.eventSources.lookup k
            = w.node.eventSources.lookup k)
      ∧ closedHandles (handleEventSourceError env w h uuid).1.trace
          = closedHandles w.trace ++ [h]
      ∧ sentMessages (handleEventSourceError env w h uuid).1.trace
          = sentMessages w.trace ++
              [{ msid := env.generateId w.idCount, topic := none,
                 payload := { uuid := uuid, data := none, event := "close" } }] := by
  have hmem := mem_keys_of_lookup _ _ _ hopen
  have hlen := length_deleteProp _ _ hwf hmem
  have hlen2 : (objectKeys (deleteProp w.node.eventSources uuid)).length
      = (objectKeys w.node.eventSources).length - 1 := by omega
  refine ⟨?_, rfl, ?_, ?_, ?_, ?_, ?_⟩
  · simp [handleEventSourceError, updateStatus, generateId, World.emit, hlen2]
  · exact not_mem_keys_deleteProp _ _
  · exact hlen
  · intro k hk
    exact lookup_deleteProp_ne _ _ _ hk
  · simp [handleEventSourceError, updateStatus, generateId, World.emit, closedHandles_append,
      closedHandles]
  · simp [handleEventSourceError, updateStatus, generateId, World.emit, sentMessages_append,
      sentMessages]

/-- Witness of C3: in `worldA` uuid `a` is open with handle `0`; after the stream error the
registry is empty and the status pushed reads `active clients: 0`. -/
theorem stream_error_closes_and_removes_witness :
    (objectKeys worldA.node.eventSources).Nodup
      ∧ worldA.node.eventSources.lookup "a" = some 0
      ∧ (handleEventSourceError stdEnv worldA 0 "a").1.trace =
          worldA.trace ++
            [Effect.close 0,
             Effect.status
               { fill := "green", shape := "dot",
                 text := "active clients: " ++
                   toString ((objectKeys worldA.node.eventSources).length - 1) },
             Effect.send
               { msid := stdEnv.generateId worldA.idCount, topic := none,
                 payload := { uuid := "a", data := none, event := "close" } }] :=
  ⟨by decide, by rfl,
    (stream_error_closes_and_removes stdEnv worldA 0 "a" (by decide) (by rfl)).1⟩

/-- C8: when reading the request fields throws (there is no `msg.payload`) or the connection
constructor throws, the registry after the handler is identical to the registry before it:
nothing inserted, removed or replaced; the node differs from the node before at most in the
state of the `headers` object the constructor was given. -/
theorem failed_open_keeps_registry (env : Env) (w : World) (msg : InMsg) (done : Bool)
    (hfail : msg.payload = none ∨
      ∃ p e, msg.payload = some p ∧
        env.openStream p.url (jsOr p.headers w.node.headers) = some e) :
    (inputHandler env w msg done).1.node.eventSources = w.node.eventSources
      ∧ (inputHandler env w msg done).1.node
          = { w.node with headers := (inputHandler env w msg done).1.node.headers } := by
  rcases hfail with hnone | ⟨p, e, hp, he⟩
  · cases done <;> simp [inputHandler, inputTry, inputCatch, hnone, World.emit]
  · have hn := nodeAfterCall_eq env w.node p
    cases hdup : (getProp w.node.eventSources p.uuid).truthy <;> cases done <;>
      simp [inputHandler, inputTry, inputCatch, hp, he, hdup, World.emit,
        nodeAfterCall_eventSources] <;> exact hn

/-- Witness of C8: in `worldA` a request without url makes the standard constructor throw,
and the registry still holds exactly `a`. -/
theorem failed_open_keeps_registry_witness :
    (({ payload := some requestNoUrl } : InMsg).payload = none ∨
      ∃ p e, ({ payload := some requestNoUrl } : InMsg).payload = some p ∧
        stdEnv.openStream p.url (jsOr p.headers worldA.node.headers) = some e)
      ∧ (inputHandler stdEnv worldA { payload := some requestNoUrl } true).1.node.eventSources
          = worldA.node.eventSources :=
  ⟨Or.inr ⟨requestNoUrl, _, rfl, rfl⟩,
    (failed_open_keeps_registry stdEnv worldA { payload := some requestNoUrl } true
      (Or.inr ⟨requestNoUrl, _, rfl, rfl⟩)).1⟩

/-- C2, evaluated where the code departs from it: on the fresh node, whose registry has no
key, a request for uuid `constructor` whose construction would not throw is refused with
`Duplicate uuid refused: constructor`; no connection is created and the registry stays
empty. -/
theorem prototype_name_refused_as_duplicate :
    "constructor" ∉ objectKeys freshWorld.node.eventSources
      ∧ stdEnv.openStream (.str "http://localhost/a")
          (jsOr .undefined freshWorld.node.headers) = none
      ∧ inputHandler stdEnv freshWorld (openRequest "constructor" "http://localhost/a") true
          = ({ freshWorld with trace := freshWorld.trace ++
                [Effect.nodeError "Duplicate uuid refused: constructor", Effect.done] }, none)
      ∧ constructions
          (inputHandler stdEnv freshWorld
            (openRequest "constructor" "http://localhost/a") true).1.trace = 0
      ∧ (inputHandler stdEnv freshWorld
            (openRequest "constructor" "http://localhost/a") true).1.node.eventSources = [] :=
  ⟨by decide, rfl, rfl, rfl, rfl⟩

/-- C7, evaluated where the code departs from it: on the fresh node a request without url
makes the constructor throw; the handler logs the error and calls `done`, but it pushes no
status (the last status is still the green one of the constructor) and it throws
`ReferenceError: updateNodeStatus is not defined` to the host. -/
theorem failed_open_throws_to_host :
    stdEnv.openStream requestNoUrl.url (jsOr requestNoUrl.headers freshWorld.node.headers)
        = some { name := "TypeError", message := "The \"url\" argument must be of type string" }
      ∧ inputHandler stdEnv freshWorld { payload := some requestNoUrl } true
          = ({ freshWorld with trace := freshWorld.trace ++
                [Effect.newEventSource .undefined (.obj [])
                   (.error { name := "TypeError",
                             message := "The \"url\" argument must be of type string" }),
                 Effect.logError
                   { name := "TypeError",
                     message := "The \"url\" argument must be of type string" },
                 Effect.done] },
             some { name := "ReferenceError", message := "updateNodeStatus is not defined" })
      ∧ lastStatus (inputHandler stdEnv freshWorld { payload := some requestNoUrl } true).1.trace
          = some { fill := "green", shape := "dot", text := "active clients: 0" }
      ∧ (inputHandler stdEnv freshWorld { payload := some requestNoUrl } true).2 ≠ none :=
  ⟨rfl, rfl, rfl, by decide⟩

/-- C4, evaluated where the code departs from it: from the fresh node, two open requests
with the distinct uuids `a` and `constructor`, neither of whose constructions throws and none
closed since, leave one key in the registry, not two. -/
theorem count_law_fails_on_prototype_name :
    openCount opensWithPrototypeName = 2
      ∧ closeCount opensWithPrototypeName = 0
      ∧ objectKeys (run stdEnv freshWorld opensWithPrototypeName).node.eventSources = ["a"]
      ∧ (objectKeys (run stdEnv freshWorld opensWithPrototypeName).node.eventSources).length
          ≠ openCount opensWithPrototypeName - closeCount opensWithPrototypeName :=
  ⟨rfl, rfl, rfl, by decide⟩

/-- C5 as stated fails: a node created with configured headers that are not JSON has, after
its creation, a red status carrying the error message, not the green count. -/
theorem malformed_config_status_is_red :
    lastStatus (CreateSseClientNode stdEnv malformedConfig).trace
        = some { fill := "red", shape := "dot", text := jsonSyntaxError.message }
      ∧ lastStatus (CreateSseClientNode stdEnv malformedConfig).trace
        ≠ some { fill := "green", shape := "dot", text := "active clients: 0" } :=
  ⟨rfl, by decide⟩

/-- C5, amended: after a node creation whose configured headers are absent, empty or parse
as JSON, after every successful open and after every stream-error removal, the status last
pushed is green, a dot, and `active clients: ` followed by the number of keys then in the
registry; on a node with an empty registry, after three successful opens under pairwise
distinct uuids and a stream error on one of the three, the text is `active clients: 2`. -/
theorem status_shows_registry_count :
    (∀ (env : Env) (config : Config),
        (config.headers = none ∨ config.headers = some "" ∨
          ∃ s v, config.headers = some s ∧ env.jsonParse s = .ok v) →
        ∃ w, CreateSseClientNode env config = .live w
          ∧ w.node.eventSources = []
          ∧ lastStatus w.trace
              = some { fill := "green", shape := "dot",
                       text := "active clients: " ++
                         toString (objectKeys w.node.eventSources).length })
      ∧ (∀ (env : Env) (w : World) (p : Request) (done : Bool),
          (getProp w.node.eventSources p.uuid).truthy = false →
          env.openStream p.url (jsOr p.headers w.node.headers) = none →
          lastStatus (inputHandler env w { payload := some p } done).1.trace
            = some { fill := "green", shape := "dot",
                     text := "active clients: " ++
                       toString (objectKeys
                         (inputHandler env w { payload := some p } done).1.node.eventSources).length })
      ∧ (∀ (env : Env) (w : World) (h : Handle) (uuid : String),
          lastStatus (handleEventSourceError env w h uuid).1.trace
            = some { fill := "green", shape := "dot",
                     text := "active clients: " ++
                       toString (objectKeys
                         (handleEventSourceError env w h uuid).1.node.eventSources).length })
      ∧ (∀ (env : Env) (w : World) (p1 p2 p3 : Request) (u : String),
          w.node.eventSources = [] →
          p1.uuid ≠ p2.uuid → p1.uuid ≠ p3.uuid → p2.uuid ≠ p3.uuid →
          (getProp w.node.eventSources p1.uuid).truthy = false →
          env.openStream p1.url (jsOr p1.headers w.node.headers) = none →
          (getProp (run env w [.input { payload := some p1 }]).node.eventSources
            p2.uuid).truthy = false →
          env.openStream p2.url
            (jsOr p2.headers (run env w [.input { payload := some p1 }]).node.headers) = none →
          (getProp (run env w [.input { payload := some p1 },
            .input { payload := some p2 }]).node.eventSources p3.uuid).truthy = false →
          env.openStream p3.url
            (jsOr p3.headers (run env w [.input { payload := some p1 },
              .input { payload := some p2 }]).node.headers) = none →
          (u = p1.uuid ∨ u = p2.uuid ∨ u = p3.uuid) →
          lastStatus (run env w [.input { payload := some p1 }, .input { payload := some p2 },
              .input { payload := some p3 }, .streamError u]).trace
            = some { fill := "green", shape := "dot", text := "active clients: 2" }) := by
  refine ⟨?_, ?_, ?_, ?_⟩
  · intro env config hcfg
    have hdef : ∃ v, defaultHeaders env config = .ok v := by
      rcases hcfg with h | h | ⟨s, v, h, hv⟩
      · exact ⟨.obj [], by simp [defaultHeaders, h]⟩
      · exact ⟨.obj [], by simp [defaultHeaders, h]⟩
      · by_cases hs : s = ""
        · exact ⟨.obj [], by simp [defaultHeaders, h, hs]⟩
        · exact ⟨v, by simp [defaultHeaders, h, hs, hv]⟩
    obtain ⟨v, hv⟩ := hdef
    refine ⟨updateStatus
      { node := { event := config.event, output := config.output, headers := v,
                  eventSources := [] }
        nextHandle := 0, idCount := 0, trace := [.createNode, .onInput] },
      by simp only [CreateSseClientNode, hv], ?_, ?_⟩
    · simp [updateStatus, World.emit]
    · simp [updateStatus, World.emit, lastStatus, objectKeys]
  · intro env w p done hnew hok
    rw [inputHandler_open env w p done hnew hok]
    cases done <;> simp [lastStatus_append, lastStatus, objectKeys]
  · intro env w h uuid
    simp [handleEventSourceError, updateStatus, generateId, World.emit, lastStatus_append,
      lastStatus]
  · intro env w p1 p2 p3 u hempty h12 h13 h23 hn1 ho1 hn2 ho2 hn3 ho3 hu
    have hn2' : (getProp (step env w (.input { payload := some p1 })).node.eventSources
        p2.uuid).truthy = false := hn2
    have ho2' : env.openStream p2.url
        (jsOr p2.headers (step env w (.input { payload := some p1 })).node.headers) = none := ho2
    have hn3' : (getProp (step env (step env w (.input { payload := some p1 }))
        (.input { payload := some p2 })).node.eventSources p3.uuid).truthy = false := hn3
    have ho3' : env.openStream p3.url
        (jsOr p3.headers (step env (step env w (.input { payload := some p1 }))
          (.input { payload := some p2 })).node.headers) = none := ho3
    have hr1 := step_open_registry env w p1 hn1 ho1
    have hr2 := step_open_registry env _ p2 hn2' ho2'
    have hr3 := step_open_registry env _ p3 hn3' ho3'
    rw [hr2, hr1, hempty] at hr3
    have hkeys : objectKeys (step env (step env (step env w (.input { payload := some p1 }))
        (.input { payload := some p2 })) (.input { payload := some p3 })).node.eventSources
        = [p1.uuid, p2.uuid, p3.uuid] := by
      rw [hr3]; simp [objectKeys]
    have hmem : u ∈ objectKeys (step env (step env (step env w
        (.input { payload := some p1 })) (.input { payload := some p2 }))
        (.input { payload := some p3 })).node.eventSources := by
      rw [hkeys]; simp [hu]
    have hnd : (objectKeys (step env (step env (step env w
        (.input { payload := some p1 })) (.input { payload := some p2 }))
        (.input { payload := some p3 })).node.eventSources).Nodup := by
      rw [hkeys]; simp [h12, h13, h23]
    have hlen := length_deleteProp _ _ hnd hmem
    rw [hkeys] at hlen
    have hlen2 : (objectKeys (deleteProp (step env (step env (step env w
        (.input { payload := some p1 })) (.input { payload := some p2 }))
        (.input { payload := some p3 })).node.eventSources u)).length = 2 := by
      simpa using hlen
    have hlast := (step_streamError_open env _ u hmem).2
    rw [hlen2] at hlast
    exact hlast

/-- Witness of C5 amended: the configuration without headers creates a live node whose last
status is the green count, the first open on it pushes the count of the new registry, and
after opens under `a`, `b`, `c` and a stream error on `b` the text is `active clients: 2`. -/
theorem status_shows_registry_count_witness :
    (∃ w, CreateSseClientNode stdEnv { event := "message", output := "json", headers := none }
          = .live w
        ∧ w.node.eventSources = []
        ∧ lastStatus w.trace
            = some { fill := "green", shape := "dot",
                     text := "active clients: " ++
                       toString (objectKeys w.node.eventSources).length })
      ∧ (getProp freshWorld.node.eventSources requestA.uuid).truthy = false
      ∧ stdEnv.openStream requestA.url (jsOr requestA.headers freshWorld.node.headers) = none
      ∧ lastStatus (inputHandler stdEnv freshWorld { payload := some requestA } true).1.trace
          = some { fill := "green", shape := "dot",
                   text := "active clients: " ++
                     toString (objectKeys
                       (inputHandler stdEnv freshWorld
                         { payload := some requestA } true).1.node.eventSources).length }
      ∧ lastStatus (run stdEnv freshWorld threeOpensOneError).trace
          = some { fill := "green", shape := "dot", text := "active clients: 2" } :=
  ⟨status_shows_registry_count.1 stdEnv _ (Or.inl rfl), rfl, rfl,
    status_shows_registry_count.2.1 stdEnv freshWorld requestA true rfl rfl,
    status_shows_registry_count.2.2.2 stdEnv freshWorld
      { url := .str "http://localhost/a", uuid := "a", headers := .undefined }
      { url := .str "http://localhost/b", uuid := "b", headers := .undefined }
      { url := .str "http://localhost/c", uuid := "c", headers := .undefined } "b"
      rfl (by decide) (by decide) (by decide) rfl rfl rfl rfl rfl rfl (Or.inr (Or.inl rfl))⟩

/-- C6: the `data` computed by `handleEvent` is the parsed value when the mode is `json` and
the parser accepts the payload, the payload itself when the mode is `json` and the parser
throws, and the payload itself whatever the parser would do when the mode is not `json`;
the decode step throws for no payload, and the value is the `data` field of the message
sent.  With the reference parser, `42` gives the number 42 and `{bad` gives itself. -/
theorem decode_json_or_raw :
    (∀ (env : Env) (s : String) (v : JsVal),
        env.jsonParse s = .ok v → decodeTry env "json" s = .ok v)
      ∧ (∀ (env : Env) (s : String) (e : JsError),
        env.jsonParse s = .error e → decodeTry env "json" s = .ok (.str s))
      ∧ (∀ (env : Env) (output s : String),
        output ≠ "json" → decodeExpr env output s = .ok (.str s)
          ∧ decodeTry env output s = .ok (.str s))
      ∧ (∀ (env : Env) (output s : String), ∃ v, decodeTry env output s = .ok v)
      ∧ (∀ (env : Env) (w : World) (event : SseEvent) (h : Handle) (uuid : String),
          (handleEvent env w event h uuid).2 = none
            ∧ ∃ v, decodeTry env w.node.output event.data = .ok v
              ∧ ((sentMessages (handleEvent env w event h uuid).1.trace).map
                    (fun m => m.payload.data))
                  = (sentMessages w.trace).map (fun m => m.payload.data) ++ [some v])
      ∧ decodeTry stdEnv "json" "42" = .ok (.num 42 0)
      ∧ decodeTry stdEnv "json" "\x7bbad" = .ok (.str "\x7bbad")
      ∧ decodeTry stdEnv "raw" "42" = .ok (.str "42") := by
  have hnever : ∀ (env : Env) (output s : String), ∃ v, decodeTry env output s = .ok v := by
    intro env output s
    unfold decodeTry
    cases decodeExpr env output s with
    | ok v => exact ⟨v, rfl⟩
    | error e => exact ⟨_, rfl⟩
  refine ⟨?_, ?_, ?_, hnever, ?_, rfl, rfl, rfl⟩
  · intro env s v hv
    simp [decodeTry, decodeExpr, hv]
  · intro env s e he
    simp [decodeTry, decodeExpr, he]
  · intro env output s hmode
    simp [decodeTry, decodeExpr, hmode]
  · intro env w event h uuid
    obtain ⟨v, hv⟩ := hnever env w.node.output event.data
    have hv1 : decodeTry env (w.emit (Effect.logDebug
        ("Received event: from undefined - " ++ event.type))).node.output event.data = .ok v := hv
    refine ⟨?_, v, hv, ?_⟩
    · simp only [handleEvent, hv1]
    · simp only [handleEvent, hv1]
      simp [generateId, World.emit, sentMessages_append, sentMessages]

/-- Witness of C6: a parser that accepts `42` and rejects `{bad`, and a mode that is not
`json`. -/
theorem decode_json_or_raw_witness :
    stdEnv.jsonParse "42" = .ok (.num 42 0)
      ∧ decodeTry stdEnv "json" "42" = .ok (.num 42 0)
      ∧ stdEnv.jsonParse "\x7bbad" = .error jsonSyntaxError
      ∧ decodeTry stdEnv "json" "\x7bbad" = .ok (.str "\x7bbad")
      ∧ "raw" ≠ "json"
      ∧ decodeTry stdEnv "raw" "\x7bbad" = .ok (.str "\x7bbad") :=
  ⟨rfl, decode_json_or_raw.1 stdEnv "42" _ rfl,
   rfl, decode_json_or_raw.2.1 stdEnv "\x7bbad" _ rfl,
   by decide, (decode_json_or_raw.2.2.1 stdEnv "raw" "\x7bbad" (by decide)).2⟩

/-- C9: a successful open registers, for the configured event name and on the new handle
stored under the uuid, the listener closed over that handle and uuid; run on any event, that
listener is `handleEvent`, which throws nothing, sends exactly one message, whose topic is the
event type and whose payload is the uuid, the decoded data and `event: 'message'`, and leaves
the node, hence the registry, unchanged. -/
theorem named_event_forwarded :
    (∀ (env : Env) (w : World) (p : Request) (done : Bool),
        (getProp w.node.eventSources p.uuid).truthy = false →
        env.openStream p.url (jsOr p.headers w.node.headers) = none →
        Effect.addListener w.nextHandle w.node.event (.onEvent w.nextHandle p.uuid)
            ∈ (inputHandler env w { payload := some p } done).1.trace
          ∧ (inputHandler env w { payload := some p } done).1.node.eventSources.lookup p.uuid
              = some w.nextHandle)
      ∧ (∀ (env : Env) (w : World) (event : SseEvent) (h : Handle) (uuid : String),
          runCallback env w (.onEvent h uuid) event = handleEvent env w event h uuid
            ∧ (handleEvent env w event h uuid).2 = none
            ∧ (handleEvent env w event h uuid).1.node = w.node
            ∧ (handleEvent env w event h uuid).1.node.eventSources = w.node.eventSources
            ∧ ∃ data, decodeTry env w.node.output event.data = .ok data
              ∧ (handleEvent env w event h uuid).1.trace =
                  w.trace ++
                    [Effect.logDebug ("Received event: from undefined - " ++ event.type),
                     Effect.send
                       { msid := env.generateId w.idCount, topic := some event.type,
                         payload := { uuid := uuid, data := some data, event := "message" } }]
              ∧ sentMessages (handleEvent env w event h uuid).1.trace =
                  sentMessages w.trace ++
                    [{ msid := env.generateId w.idCount, topic := some event.type,
                       payload := { uuid := uuid, data := some data, event := "message" } }]) := by
  constructor
  · intro env w p done hnew hok
    have hk := ((getProp_falsy_iff _ _).1 hnew).1
    rw [inputHandler_open env w p done hnew hok]
    exact ⟨by simp, lookup_append_new _ _ _ hk⟩
  · intro env w event h uuid
    have hnever : ∃ v, decodeTry env w.node.output event.data = .ok v := by
      unfold decodeTry
      cases decodeExpr env w.node.output event.data with
      | ok v => exact ⟨v, rfl⟩
      | error e => exact ⟨_, rfl⟩
    obtain ⟨v, hv⟩ := hnever
    have hv1 : decodeTry env (w.emit (Effect.logDebug
        ("Received event: from undefined - " ++ event.type))).node.output event.data = .ok v := hv
    refine ⟨rfl, ?_, ?_, ?_, v, hv, ?_, ?_⟩
    · simp only [handleEvent, hv1]
    · simp only [handleEvent, hv1]
      simp [generateId, World.emit]
    · simp only [handleEvent, hv1]
      simp [generateId, World.emit]
    · simp only [handleEvent, hv1]
      simp [generateId, World.emit]
    · simp only [handleEvent, hv1]
      simp [generateId, World.emit, sentMessages_append, sentMessages]

/-- Witness of C9: the first open on the fresh node stores handle `0` under `a` and
registers the `message` listener closed over `0` and `a`. -/
theorem named_event_forwarded_witness :
    (getProp freshWorld.node.eventSources requestA.uuid).truthy = false
      ∧ stdEnv.openStream requestA.url (jsOr requestA.headers freshWorld.node.headers) = none
      ∧ Effect.addListener 0 "message" (.onEvent 0 "a")
          ∈ (inputHandler stdEnv freshWorld { payload := some requestA } true).1.trace
      ∧ (inputHandler stdEnv freshWorld
          { payload := some requestA } true).1.node.eventSources.lookup "a" = some 0 :=
  ⟨rfl, rfl, (named_event_forwarded.1 stdEnv freshWorld requestA true rfl rfl).1,
    (named_event_forwarded.1 stdEnv freshWorld requestA true rfl rfl).2⟩

/-- C10 as stated fails: with configured headers `Last-Event-ID` and `B` and the library's
constructor, two successful opens that bring no headers of their own are given different
values: the first the parsed configuration headers, the second only `B`. -/
theorem default_headers_change_after_first_open :
    CreateSseClientNode stdEnv lastEventIdConfig = .live lastEventIdWorld
      ∧ stdEnv.jsonParse "\x7b\"Last-Event-ID\": \"5\", \"B\": \"2\"\x7d"
          = .ok (.obj [("Last-Event-ID", .str "5"), ("B", .str "2")])
      ∧ objectKeys (run stdEnv lastEventIdWorld twoDefaultOpens).node.eventSources = ["a", "b"]
      ∧ constructedWith (run stdEnv lastEventIdWorld twoDefaultOpens).trace
          = [(.str "http://localhost/a", .obj [("Last-Event-ID", .str "5"), ("B", .str "2")]),
             (.str "http://localhost/b", .obj [("B", .str "2")])]
      ∧ (constructedWith (run stdEnv lastEventIdWorld twoDefaultOpens).trace).map
            (fun c => headerNames c.2)
          ≠ [headerNames lastEventIdWorld.node.headers,
             headerNames lastEventIdWorld.node.headers] :=
  ⟨rfl, rfl, rfl, rfl, by decide⟩

/-- C10, amended: the node's `headers` object starts as the empty mapping when no headers
are configured and as the parsed configuration text otherwise; the node's handlers leave it
as it is, except that an open that uses it hands it to the constructor and finds it
afterwards in the state the constructor left it; a successful open passes to the
constructor the request's `payload.headers` when that is a mapping (or any truthy value) and
the node's `headers` object as it then is when the request has none (`undefined`, `null` or
another falsy value): one of the two values whole, never a combination; with a constructor
that leaves the object alone, the object stays the parsed configuration headers. -/
theorem headers_request_else_default :
    (∀ (env : Env) (config : Config) (w : World),
        CreateSseClientNode env config = .live w →
        ((config.headers = none ∨ config.headers = some "") → w.node.headers = .obj [])
          ∧ (∀ s, config.headers = some s → s ≠ "" → env.jsonParse s = .ok w.node.headers))
      ∧ (∀ (env : Env) (w : World) (msg : InMsg) (done : Bool),
          msg.payload = none →
          (inputHandler env w msg done).1.node.headers = w.node.headers)
      ∧ (∀ (env : Env) (w : World) (p : Request) (done : Bool),
          ((getProp w.node.eventSources p.uuid).truthy = true ∨ p.headers.truthy = true) →
          (inputHandler env w { payload := some p } done).1.node.headers = w.node.headers)
      ∧ (∀ (env : Env) (w : World) (p : Request) (done : Bool),
          (getProp w.node.eventSources p.uuid).truthy = false → p.headers.truthy = false →
          (inputHandler env w { payload := some p } done).1.node.headers
            = headersAfterCall env p.url w.node.headers)
      ∧ (∀ (env : Env) (w : World) (event : SseEvent) (h : Handle) (uuid : String),
          (handleEvent env w event h uuid).1.node.headers = w.node.headers)
      ∧ (∀ (env : Env) (w : World) (h : Handle) (uuid : String),
          (handleEventSourceError env w h uuid).1.node.headers = w.node.headers)
      ∧ (∀ (env : Env) (w : World) (p : Request) (done : Bool),
          (getProp w.node.eventSources p.uuid).truthy = false →
          env.openStream p.url (jsOr p.headers w.node.headers) = none →
          constructedWith (inputHandler env w { payload := some p } done).1.trace
              = constructedWith w.trace ++ [(p.url, jsOr p.headers w.node.headers)]
            ∧ (∀ m, p.headers = .obj m → jsOr p.headers w.node.headers = .obj m)
            ∧ (p.headers.truthy = true → jsOr p.headers w.node.headers = p.headers)
            ∧ (p.headers = .undefined → jsOr p.headers w.node.headers = w.node.headers)
            ∧ (p.headers = .null → jsOr p.headers w.node.headers = w.node.headers)
            ∧ (p.headers.truthy = false → jsOr p.headers w.node.headers = w.node.headers)
            ∧ (jsOr p.headers w.node.headers = p.headers
                ∨ jsOr p.headers w.node.headers = w.node.headers))
      ∧ (∀ (env : Env), (∀ url h, env.headersAfter url h = h) →
          ∀ (w : World) (actions : List Action),
            (run env w actions).node.headers = w.node.headers) := by
  refine ⟨?_, ?_, ?_, ?_, ?_, ?_, ?_, ?_⟩
  · intro env config w hlive
    unfold CreateSseClientNode at hlive
    cases hd : defaultHeaders env config with
    | error e => simp [hd] at hlive
    | ok v =>
      simp only [hd, Created.live.injEq] at hlive
      subst hlive
      have hh : (updateStatus
          { node := { event := config.event, output := config.output, headers := v,
                      eventSources := [] }
            nextHandle := 0, idCount := 0,
            trace := [Effect.createNode, Effect.onInput] }).node.headers = v := rfl
      rw [hh]
      constructor
      · rintro (h | h) <;> simp [defaultHeaders, h] at hd <;> exact hd.symm
      · intro s hs hne
        simp [defaultHeaders, hs, hne] at hd
        exact hd
  · intro env w msg done hnone
    rw [inputHandler_headers, hnone]
  · intro env w p done hcase
    rw [inputHandler_headers]
    rcases hcase with hdup | ht
    · simp [hdup]
    · cases hdup : (getProp w.node.eventSources p.uuid).truthy
      · simp [nodeAfterCall_of_truthy env w.node p ht]
      · simp [hdup]
  · intro env w p done hnew hf
    rw [inputHandler_headers]
    simp [hnew, nodeAfterCall_headers_of_falsy env w.node p hf]
  · intro env w event h uuid
    cases hd : decodeTry env (w.emit (Effect.logDebug
        ("Received event: from undefined - " ++ event.type))).node.output event.data <;>
      simp only [handleEvent, hd] <;> simp [generateId, World.emit]
  · intro env w h uuid
    exact handleEventSourceError_headers env w h uuid
  · intro env w p done hnew hok
    refine ⟨?_, ?_, ?_, ?_, ?_, ?_, ?_⟩
    · rw [inputHandler_open env w p done hnew hok]
      cases done <;> simp [constructedWith_append, constructedWith]
    · intro m hm
      simp [jsOr, hm, JsVal.truthy]
    · intro ht
      simp [jsOr, ht]
    · intro hu
      simp [jsOr, hu, JsVal.truthy]
    · intro hu
      simp [jsOr, hu, JsVal.truthy]
    · intro hf
      simp [jsOr, hf]
    · unfold jsOr
      cases p.headers.truthy <;> simp
  · intro env hpure w actions
    exact run_headers_of_pure env hpure actions w

/-- Witness of C10 amended: the node configured with header `B` has that mapping as its
headers object; a request bringing header `A` opens its connection with `A` alone and leaves
the object as it was; a request bringing none, on the node configured with `Last-Event-ID`,
leaves the object as the constructor left it; with a constructor that leaves the object
alone two such opens leave it as it was. -/
theorem headers_request_else_default_witness :
    CreateSseClientNode stdEnv headerConfig = .live headerWorld
      ∧ stdEnv.jsonParse "\x7b\"B\": \"2\"\x7d" = .ok headerWorld.node.headers
      ∧ (getProp headerWorld.node.eventSources requestWithHeaders.uuid).truthy = false
      ∧ stdEnv.openStream requestWithHeaders.url
          (jsOr requestWithHeaders.headers headerWorld.node.headers) = none
      ∧ constructedWith
          (inputHandler stdEnv headerWorld { payload := some requestWithHeaders } true).1.trace
          = constructedWith headerWorld.trace ++
              [(requestWithHeaders.url,
                jsOr requestWithHeaders.headers headerWorld.node.headers)]
      ∧ jsOr requestWithHeaders.headers headerWorld.node.headers = .obj [("A", .str "1")]
      ∧ (inputHandler stdEnv headerWorld
          { payload := some requestWithHeaders } true).1.node.headers
          = headerWorld.node.headers
      ∧ (inputHandler stdEnv lastEventIdWorld { payload := some requestA } true).1.node.headers
          = headersAfterCall stdEnv requestA.url lastEventIdWorld.node.headers
      ∧ (∀ url h, pureEnv.headersAfter url h = h)
      ∧ (run pureEnv lastEventIdWorld twoDefaultOpens).node.headers
          = lastEventIdWorld.node.headers :=
  ⟨rfl,
   (headers_request_else_default.1 stdEnv headerConfig headerWorld rfl).2 _ rfl (by decide),
   rfl, rfl,
   (headers_request_else_default.2.2.2.2.2.2.1 stdEnv headerWorld requestWithHeaders true
      rfl rfl).1,
   (headers_request_else_default.2.2.2.2.2.2.1 stdEnv headerWorld requestWithHeaders true
      rfl rfl).2.1 _ rfl,
   headers_request_else_default.2.2.1 stdEnv headerWorld requestWithHeaders true (Or.inr rfl),
   headers_request_else_default.2.2.2.1 stdEnv lastEventIdWorld requestA true rfl rfl,
   fun _ _ => rfl,
   headers_request_else_default.2.2.2.2.2.2.2 pureEnv (fun _ _ => rfl) lastEventIdWorld
     twoDefaultOpens⟩

end SseClient
